import Mathlib

/-!
Verification of the sdgrabber repository's incremental-sync core.

The Python sources are shallowly embedded:

* `stores.py` — Python dicts are modelled as association lists
  (`List (K × V)`) with first-match lookup (`dget`), in-place overwrite
  (`dset`) and `dict.pop` (`dpop`).  The generator `_diff(old, new)` of
  `src/sdgrabber/stores.py` is embedded as a function returning both the
  mutated `old` map and the list of yielded keys, in yield order.  The
  older variant `BaseStore._diff` of `src/pysd/stores.py` (which tests
  membership of the key only) is embedded as `pysdDiff`.
* `client.py` — the login / lineup / schedule / program phases are
  embedded over explicit parsed-response values; Python exceptions become
  an `Except PyErr` result, and generator laziness is modelled by the
  event trace a generator body executes (`PEvent`, `consumeN`).
* `models.py` — `ProgramModel._get_people` and `PersonModel` are embedded
  over a record of the JSON fields they read.
-/

set_option linter.unusedSectionVars false
set_option linter.unusedVariables false

/-- `d.get(k, None)` on a Python dict modelled as an association list:
first binding wins. -/
def dget {K V : Type} [DecidableEq K] : List (K × V) → K → Option V
  | [], _ => none
  | (k', v) :: rest, k => if k' = k then some v else dget rest k

/-- `d[k] = v` on a Python dict: overwrite the existing binding in place,
else append a new binding at the end (dicts keep insertion order). -/
def dset {K V : Type} [DecidableEq K] : List (K × V) → K → V → List (K × V)
  | [], k, v => [(k, v)]
  | (k', v') :: rest, k, v =>
    if k' = k then (k, v) :: rest else (k', v') :: dset rest k v

/-- `d.pop(k)` on a Python dict: the value plus the dict without that
binding, or `none` (KeyError) when the key is absent. -/
def dpop {K V : Type} [DecidableEq K] : List (K × V) → K → Option (V × List (K × V))
  | [], _ => none
  | (k', v) :: rest, k =>
    if k' = k then some (v, rest) else
      match dpop rest k with
      | some (w, rest') => some (w, (k', v) :: rest')
      | none => none

/-- `_diff(old, new)` from `src/sdgrabber/stores.py` lines 9–22:

    for key, hash in (item for item in new
                      if old.get(item[0], None) != item[1]):
        old[key] = hash
        yield key

The generator filter is evaluated lazily against the progressively
updated `old`, so the embedding threads `old` through the traversal.
Result: (final `old`, keys yielded in order). -/
def _diff {K V : Type} [DecidableEq K] [DecidableEq V] :
    List (K × V) → List (K × V) → List (K × V) × List K
  | old, [] => (old, [])
  | old, (k, v) :: rest =>
    if dget old k ≠ some v then
      let r := _diff (dset old k v) rest
      (r.1, k :: r.2)
    else
      _diff old rest

/-- `BaseStore._diff(self, old, new)` from `src/pysd/stores.py` lines
34–37: yields iff `item[0] not in old` (the marker is not compared). -/
def pysdDiff {K V : Type} [DecidableEq K] :
    List (K × V) → List (K × V) → List (K × V) × List K
  | old, [] => (old, [])
  | old, (k, v) :: rest =>
    if (dget old k).isNone then
      let r := pysdDiff (dset old k v) rest
      (r.1, k :: r.2)
    else
      pysdDiff old rest

/-- The state of `old` after `_diff` has processed one pair `(k, v)`:
overwritten when the marker is absent or different, untouched otherwise. -/
def stepOld {K V : Type} [DecidableEq K] [DecidableEq V]
    (old : List (K × V)) (p : K × V) : List (K × V) :=
  if dget old p.1 ≠ some p.2 then dset old p.1 p.2 else old

/-- The key yielded by `_diff` at position `i` of `new`, judged — as in the
source — against the progressively updated `old` (the state after the
first `i` pairs): `some key` when the pair qualifies, `none` otherwise. -/
def yieldAt {K V : Type} [DecidableEq K] [DecidableEq V]
    (old : List (K × V)) (new : List (K × V)) (i : Nat) : Option K :=
  match new[i]? with
  | some (k, v) =>
    if dget (_diff old (new.take i)).1 k = some v then none else some k
  | none => none

/-- The marker of the last occurrence of `k` in `new`, `none` if `k` does
not occur. -/
def lastMarker {K V : Type} [DecidableEq K] : List (K × V) → K → Option V
  | [], _ => none
  | (k', v) :: rest, k =>
    (lastMarker rest k).or (if k' = k then some v else none)

/-- The Python dict comprehension `{key: marker for (key, marker) in new}`
used by the spec's "old equals the new state" reading. -/
def dictOf {K V : Type} [DecidableEq K] (new : List (K × V)) : List (K × V) :=
  new.foldl (fun m p => dset m p.1 p.2) []

section DiffLemmas

variable {K V : Type} [DecidableEq K] [DecidableEq V]

theorem dget_dset (m : List (K × V)) (k k' : K) (v : V) :
    dget (dset m k v) k' = if k = k' then some v else dget m k' := by
  induction m with
  | nil => simp [dset, dget]
  | cons p rest ih =>
    obtain ⟨k0, v0⟩ := p
    simp only [dset]
    by_cases h0 : k0 = k
    · rw [if_pos h0]
      by_cases h1 : k = k'
      · simp [dget, h1]
      · have h2 : ¬ k0 = k' := by rw [h0]; exact h1
        simp [dget, h1, h2]
    · rw [if_neg h0]
      by_cases h1 : k0 = k'
      · have h2 : ¬ k = k' := fun h => h0 (h1.trans h.symm)
        simp [dget, h1, h2]
      · simp [dget, h1, ih]

theorem diff_fst_cons (old : List (K × V)) (p : K × V) (rest : List (K × V)) :
    (_diff old (p :: rest)).1 = (_diff (stepOld old p) rest).1 := by
  obtain ⟨k, v⟩ := p
  by_cases h : dget old k = some v
  · simp [_diff, stepOld, h]
  · simp [_diff, stepOld, h]

/-- Pointwise characterisation of the map `_diff` leaves behind: each key
ends at its last marker in `new`, keys outside `new` keep their binding. -/
theorem diff_dget (old new : List (K × V)) (k : K) :
    dget (_diff old new).1 k = (lastMarker new k).or (dget old k) := by
  induction new generalizing old with
  | nil => simp [_diff, lastMarker]
  | cons p rest ih =>
    obtain ⟨k0, v0⟩ := p
    rw [diff_fst_cons]
    by_cases h : dget old k0 = some v0
    · have hstep : stepOld old (k0, v0) = old := by simp [stepOld, h]
      rw [hstep, ih, lastMarker, Option.or_assoc]
      congr 1
      by_cases hk : k0 = k
      · subst hk
        cases hg : dget old k0 with
        | none => rw [hg] at h; exact absurd h (by simp)
        | some w =>
          rw [hg] at h
          simp at h
          simp [h, hg, Option.or]
      · simp [hk]
    · have hstep : stepOld old (k0, v0) = dset old k0 v0 := by
        simp [stepOld, h]
      rw [hstep, ih, lastMarker, Option.or_assoc]
      congr 1
      rw [dget_dset]
      by_cases hk : k0 = k
      · simp [hk, Option.or]
      · simp [hk]

theorem lastMarker_eq_none (new : List (K × V)) (k : K)
    (h : ∀ p ∈ new, p.1 ≠ k) : lastMarker new k = none := by
  induction new with
  | nil => rfl
  | cons p rest ih =>
    obtain ⟨k0, v0⟩ := p
    have hk0 : k0 ≠ k := h (k0, v0) (by simp)
    rw [lastMarker, ih (fun q hq => h q (by simp [hq]))]
    simp [hk0]

theorem lastMarker_of_nodup (new : List (K × V)) (k : K) (v : V)
    (hd : new.Pairwise (fun a b => a.1 ≠ b.1)) (hm : (k, v) ∈ new) :
    lastMarker new k = some v := by
  induction new with
  | nil => exact absurd hm (by simp)
  | cons p rest ih =>
    obtain ⟨k0, v0⟩ := p
    rw [List.pairwise_cons] at hd
    rcases List.mem_cons.mp hm with heq | hrest
    · injection heq with h1 h2
      subst h1; subst h2
      have hnone : lastMarker rest k = none :=
        lastMarker_eq_none rest k (fun q hq => Ne.symm (hd.1 q hq))
      rw [lastMarker, hnone]; simp [Option.or]
    · rw [lastMarker, ih hd.2 hrest]; simp [Option.or]

theorem yieldAt_zero (old : List (K × V)) (p : K × V) (rest : List (K × V)) :
    yieldAt old (p :: rest) 0 =
      if dget old p.1 = some p.2 then none else some p.1 := by
  obtain ⟨k, v⟩ := p
  simp [yieldAt, _diff]

theorem yieldAt_succ (old : List (K × V)) (p : K × V) (rest : List (K × V)) (i : Nat) :
    yieldAt old (p :: rest) (i + 1) = yieldAt (stepOld old p) rest i := by
  obtain ⟨k, v⟩ := p
  simp only [yieldAt, List.getElem?_cons_succ, List.take_succ_cons, diff_fst_cons]

/-- The yielded-key list of `_diff` is exactly the position-ordered list of
keys of `new` that qualify against the progressively updated `old`. -/
theorem diff_snd_eq_filterMap (old new : List (K × V)) :
    (_diff old new).2 = (List.range new.length).filterMap (yieldAt old new) := by
  induction new generalizing old with
  | nil => simp [_diff]
  | cons p rest ih =>
    obtain ⟨k, v⟩ := p
    have hcomp : yieldAt old ((k, v) :: rest) ∘ Nat.succ = yieldAt (stepOld old (k, v)) rest :=
      funext fun i => yieldAt_succ old (k, v) rest i
    by_cases h : dget old k = some v
    · have hstep : stepOld old (k, v) = old := by simp [stepOld, h]
      have hz : yieldAt old ((k, v) :: rest) 0 = none := by
        simp [yieldAt, _diff, h]
      rw [List.length_cons, List.range_succ_eq_map, List.filterMap_cons_none hz,
          List.filterMap_map, hcomp, hstep, ← ih old]
      simp [_diff, h]
    · have hstep : stepOld old (k, v) = dset old k v := by simp [stepOld, h]
      have hz : yieldAt old ((k, v) :: rest) 0 = some k := by
        simp [yieldAt, _diff, h]
      rw [List.length_cons, List.range_succ_eq_map, List.filterMap_cons_some hz,
          List.filterMap_map, hcomp, hstep, ← ih (dset old k v)]
      simp [_diff, h]

end DiffLemmas

/-- C1: Diff Engine correctness — a key is yielded by `_diff` iff, at the
moment its pair is processed against the progressively updated `old`
(the state `(_diff old (new.take i)).1` after the first `i` pairs), it is
absent from `old` or present with a different marker (`yieldAt`); the
yielded keys appear in the position order of their qualifying occurrences.
On `old = {a:1, b:2, c:3}` and `new = [(a,1), (b,2), (c,4), (d,5)]`
exactly `c` then `d` are yielded. -/
theorem diff_yield_iff_changed_when_processed {K V : Type} [DecidableEq K] [DecidableEq V] :
    (∀ old new : List (K × V),
      (_diff old new).2 = (List.range new.length).filterMap (yieldAt old new)) ∧
    (_diff [("a", 1), ("b", 2), ("c", 3)]
        [("a", 1), ("b", 2), ("c", 4), ("d", 5)]).2 = ["c", "d"] :=
  ⟨fun old new => diff_snd_eq_filterMap old new, by decide⟩

/-- C2: Diff completeness — when the keys of `new` are pairwise distinct,
full consumption of `_diff old new` leaves `old[key] = marker` for every
`(key, marker)` pair of `new`, yielded or skipped. -/
theorem diff_completeness {K V : Type} [DecidableEq K] [DecidableEq V]
    (old new : List (K × V)) (hnd : new.Pairwise (fun a b => a.1 ≠ b.1)) :
    ∀ p ∈ new, dget (_diff old new).1 p.1 = some p.2 := by
  intro p hp
  rw [diff_dget, lastMarker_of_nodup new p.1 p.2 hnd hp]
  rfl

theorem diff_completeness_witness :
    dget (_diff [("a", 1)] [("a", 2), ("b", 3)]).1 "b" = some 3 :=
  diff_completeness [("a", 1)] [("a", 2), ("b", 3)] (by decide) ("b", 3) (by decide)

/-- C3 counterexample: with `old = {a:1}` and `new = [(b,2)]`, the map left
by full consumption of `_diff` still binds `a` while the claimed new state
`{key: marker for (key, marker) in new}` does not, so the two differ. -/
theorem diff_counter_old_not_new_state :
    dget (_diff [("a", 1)] [("b", 2)]).1 "a" = some 1 ∧
    dget (dictOf [("b", (2 : Nat))]) "a" = none := by
  exact ⟨by decide, by decide⟩

/-- C3 (amended): after full consumption of `_diff old new`, `old` maps
every key occurring in `new` to the marker of its last occurrence in `new`
and keeps its original binding for every other key — so `old` equals the
original map overridden by `new`, not the dict comprehension over `new`
alone: entries of `old` whose keys do not occur in `new` are retained. -/
theorem diff_final_map {K V : Type} [DecidableEq K] [DecidableEq V]
    (old new : List (K × V)) (k : K) :
    dget (_diff old new).1 k = (lastMarker new k).or (dget old k) :=
  diff_dget old new k

/-- C10: frame property — `_diff` leaves every binding of `old` whose key
does not occur in any pair of `new` exactly as it was, and never removes
an entry: every key bound in `old` before the diff is still bound after
full consumption. -/
theorem diff_frame {K V : Type} [DecidableEq K] [DecidableEq V]
    (old new : List (K × V)) (k : K) :
    ((∀ p ∈ new, p.1 ≠ k) → dget (_diff old new).1 k = dget old k) ∧
    ((dget old k).isSome → (dget (_diff old new).1 k).isSome) := by
  constructor
  · intro h
    rw [diff_dget, lastMarker_eq_none new k h]
    rfl
  · intro h
    rw [diff_dget]
    cases hl : lastMarker new k
    · simpa [Option.or] using h
    · simp [Option.or]

/-! ## Login (`login` of `src/pysd/client.py` 71–81 and
`src/sdgrabber/client.py` 100–108) -/

/-- The parsed JSON body of the `/token` response, restricted to the fields
the clients read; `none` models an absent field. -/
structure TokenResp where
  code : Option Int
  response : Option String
  message : Option String
  token : Option String

/-- The Python exceptions the embedded code paths can raise. -/
inductive PyErr
  | errorResponse (message : String)
  | serviceOffline (message : String)
  | keyError (key : String)
  | attributeError (attr : String)
  | typeError
  deriving DecidableEq, Repr

/-- The tail of `_request` (both clients, identical): after parsing,
`if isinstance(data, dict) and 'response' in data: raise
ErrorResponse(data['message'], data)`. -/
def requestEnvelopeCheck (d : TokenResp) : Except PyErr TokenResp :=
  if d.response.isSome then
    match d.message with
    | some m => .error (.errorResponse m)
    | none => .error (.keyError "message")
  else
    .ok d

/-- `SDClient.login` of `src/pysd/client.py` lines 71–81: after `_request`,
`if data['code'] != 0: raise ServiceOffline(data['response'], data)`, else
`self.token = data['token']`.  Missing dict keys raise KeyError at the
point they are read. -/
def pysdLogin (d : TokenResp) : Except PyErr String :=
  match requestEnvelopeCheck d with
  | .error e => .error e
  | .ok d =>
    match d.code with
    | none => .error (.keyError "code")
    | some c =>
      if c ≠ 0 then
        match d.response with
        | some r => .error (.serviceOffline r)
        | none => .error (.keyError "response")
      else
        match d.token with
        | some t => .ok t
        | none => .error (.keyError "token")

/-- `SDGrabber.login` of `src/sdgrabber/client.py` lines 100–108: after
`_request`, `self.token = data['token']` — there is no code check and no
ServiceOffline class in this variant. -/
def sdgrabberLogin (d : TokenResp) : Except PyErr String :=
  match requestEnvelopeCheck d with
  | .error e => .error e
  | .ok d =>
    match d.token with
    | some t => .ok t
    | none => .error (.keyError "token")

/-- Whether a login outcome is the ServiceOffline exception. -/
def isServiceOffline {α : Type} : Except PyErr α → Bool
  | .error (.serviceOffline _) => true
  | _ => false

/-- The `/token` failure body mocked by the repository's own
`test_login_fail` in `src/tests.py`. -/
def loginFailResp : TokenResp :=
  { code := some 3000, response := some "SERVICES_OFFLINE",
    message := some "Server offline for maintenance", token := none }

/-- C7 counterexample: on the repository's own test fixture — code 3000,
an error body carrying a `response` field — login surfaces the generic
`ErrorResponse` raised by `_request`'s envelope check, not ServiceOffline,
in both client variants (exactly what `test_login_fail` asserts). -/
theorem login_counter_not_service_offline :
    loginFailResp.code = some 3000 ∧
    pysdLogin loginFailResp = .error (.errorResponse "Server offline for maintenance") ∧
    isServiceOffline (pysdLogin loginFailResp) = false ∧
    isServiceOffline (sdgrabberLogin loginFailResp) = false :=
  ⟨rfl, rfl, rfl, rfl⟩

theorem pysdLogin_never_serviceOffline (d : TokenResp) :
    isServiceOffline (pysdLogin d) = false := by
  obtain ⟨c, r, m, t⟩ := d
  cases r with
  | some rv => cases m <;> rfl
  | none =>
    cases c with
    | none => rfl
    | some cv =>
      by_cases h : cv = 0
      · subst h; cases t <;> rfl
      · simp [pysdLogin, requestEnvelopeCheck, isServiceOffline, h]

theorem sdgrabberLogin_never_serviceOffline (d : TokenResp) :
    isServiceOffline (sdgrabberLogin d) = false := by
  obtain ⟨c, r, m, t⟩ := d
  cases r with
  | some rv => cases m <;> rfl
  | none => cases t <;> rfl

theorem pysdLogin_err_of_code_ne (d : TokenResp) (c : Int)
    (hc : d.code = some c) (hnz : c ≠ 0) : ∃ e, pysdLogin d = .error e := by
  obtain ⟨c0, r, m, t⟩ := d
  simp only [TokenResp.code] at hc
  subst hc
  cases r with
  | some rv =>
    cases m with
    | some mv => exact ⟨.errorResponse mv, rfl⟩
    | none => exact ⟨.keyError "message", rfl⟩
  | none =>
    exact ⟨.keyError "response", by simp [pysdLogin, requestEnvelopeCheck, hnz]⟩

theorem login_ok_of_zero_code (d : TokenResp) (t : String)
    (hr : d.response = none) (hc : d.code = some 0) (ht : d.token = some t) :
    pysdLogin d = .ok t ∧ sdgrabberLogin d = .ok t := by
  obtain ⟨c0, r, m, t0⟩ := d
  simp only [TokenResp.code, TokenResp.response, TokenResp.token] at hr hc ht
  subst hr; subst hc; subst ht
  exact ⟨by simp [pysdLogin, requestEnvelopeCheck], rfl⟩

/-- C7 (amended): login posts once to `/token`; a nonzero-code response is
an exception but never ServiceOffline — when the body carries the API's
`response` envelope field, `_request` raises the generic ErrorResponse
before pysd's code check, and without that field pysd's
`ServiceOffline(data['response'], data)` itself dies with KeyError
(sdgrabber's login checks no code at all); when code is 0 and a token is
present, the token is stored. -/
theorem login_behaviour :
    (∀ d : TokenResp, isServiceOffline (pysdLogin d) = false) ∧
    (∀ d : TokenResp, isServiceOffline (sdgrabberLogin d) = false) ∧
    (∀ (d : TokenResp) (c : Int), d.code = some c → c ≠ 0 →
      ∃ e, pysdLogin d = .error e) ∧
    (∀ (d : TokenResp) (t : String),
      d.response = none → d.code = some 0 → d.token = some t →
      pysdLogin d = .ok t ∧ sdgrabberLogin d = .ok t) :=
  ⟨pysdLogin_never_serviceOffline, sdgrabberLogin_never_serviceOffline,
   pysdLogin_err_of_code_ne, login_ok_of_zero_code⟩

/-! ## Lineup phase (`get_lineups` of `src/pysd/client.py` 83–111 and
`src/sdgrabber/client.py` 118–171) -/

/-- `SDClient.get_lineups` of `src/pysd/client.py` lines 83–111: the
`(lineup, modified)` pairs extracted from `/status` are diffed against the
stored lineup state with `self.store.diff_lineups`, and
`/lineups/<name>` is fetched — and one LineupModel yielded — for exactly
the names the diff yields, in that order.  Result: the fetched (= yielded)
lineup names. -/
def pysdGetLineupsFetched (old lhashes : List (String × String)) : List String :=
  (pysdDiff old lhashes).2

/-- `SDGrabber.get_lineups` of `src/sdgrabber/client.py` lines 118–171
(with `channels=None`): the loop `for lineup in status.lineups` fetches
`/lineups/<name>` and yields a LineupModel for every status lineup; the
store is never consulted (this variant calls no `diff_lineups`), so the
stored state argument is unused.  Result: the fetched (= yielded) lineup
names. -/
def sdgrabberGetLineupsFetched (old : List (String × String))
    (statusLineups : List (String × String)) : List String :=
  statusLineups.map Prod.fst

theorem pysdDiff_not_yield_present {K V : Type} [DecidableEq K] [DecidableEq V]
    (old new : List (K × V)) (k : K) (h : (dget old k).isSome) :
    k ∉ (pysdDiff old new).2 := by
  induction new generalizing old with
  | nil => simp [pysdDiff]
  | cons p rest ih =>
    obtain ⟨k0, v0⟩ := p
    by_cases h0 : (dget old k0).isNone
    · simp only [pysdDiff, h0, if_pos]
      intro hmem
      rcases List.mem_cons.mp hmem with heq | hrest
      · subst heq
        rw [Option.isNone_iff_eq_none] at h0
        rw [h0] at h
        exact absurd h (by simp)
      · have hs : (dget (dset old k0 v0) k).isSome := by
          rw [dget_dset]
          by_cases hk : k0 = k <;> simp [hk, h]
        exact absurd hrest (ih (dset old k0 v0) hs)
    · simp only [pysdDiff, h0, if_neg, Bool.false_eq_true, not_false_eq_true]
      exact ih old h

/-- C6 counterexample: in the sdgrabber variant, with stored lineup state
`{USA-OTA: 2019-01-01}` and a status lineup `(USA-OTA, 2019-01-01)` whose
modified marker equals the stored one, the lineup is nevertheless fetched
and yields a Lineup record — the claim's "not fetched, no record" fails. -/
theorem lineups_counter_sdgrabber_fetches_unchanged :
    dget [("USA-OTA", "2019-01-01")] "USA-OTA" = some "2019-01-01" ∧
    sdgrabberGetLineupsFetched [("USA-OTA", "2019-01-01")]
      [("USA-OTA", "2019-01-01")] = ["USA-OTA"] :=
  ⟨rfl, rfl⟩

/-- C6 (amended): the pysd variant behaves as claimed — the per-lineup
fetch (and Lineup record) happens exactly for the names its store diff
yields, and a lineup whose stored marker equals (indeed, whose name merely
exists in the stored state) is neither fetched nor yielded; the sdgrabber
variant performs no diff at all and fetches and yields every status
lineup regardless of the stored state. -/
theorem lineups_diffing :
    (∀ old lhashes : List (String × String),
      pysdGetLineupsFetched old lhashes = (pysdDiff old lhashes).2) ∧
    (∀ (old lhashes : List (String × String)) (name marker : String),
      (name, marker) ∈ lhashes → dget old name = some marker →
      name ∉ pysdGetLineupsFetched old lhashes) ∧
    (∀ old statusLineups : List (String × String),
      sdgrabberGetLineupsFetched old statusLineups = statusLineups.map Prod.fst) :=
  ⟨fun _ _ => rfl,
   fun old lhashes name marker _ hstored =>
     pysdDiff_not_yield_present old lhashes name (by simp [hstored]),
   fun _ _ => rfl⟩

/-! ## Schedule phase error branch (`get_schedules` of
`src/sdgrabber/client.py` 233–248 against `src/sdgrabber/stores.py`) -/

/-- The method names defined by `BaseStore` of `src/sdgrabber/stores.py`
lines 25–68 (its six abstract save/load methods, the three diff methods
and `save`).  No `remove_schedule` is defined. -/
def baseStoreMethods : List String :=
  ["save_lineups", "load_lineups", "save_schedules", "load_schedules",
   "save_programs", "load_programs", "diff_lineups", "diff_schedules",
   "diff_programs", "save"]

/-- `NullStore` (stores.py 71–88) only overrides the six save/load
methods, adding no new name. -/
def nullStoreMethods : List String := baseStoreMethods

/-- `PickleStore` (stores.py 91–126) overrides the six save/load methods
and adds `__init__`. -/
def pickleStoreMethods : List String := "__init__" :: baseStoreMethods

/-- Python attribute lookup on a store instance: found iff the class
hierarchy defines the method. -/
def hasattrStore (methods : List String) (name : String) : Bool :=
  methods.contains name

/-- One entry of a `/schedules` batch response: an error envelope (it
contains a `response` field) or a station schedule whose `programs` list
carries `(programID, md5)` pairs. -/
inductive SchedEntry
  | errEnvelope (stationID : String) (airDateTime : String) (message : String)
  | sched (stationID : String) (programs : List (String × String))

/-- The observable outcome of the `for schedule in data` loop of
`get_schedules`: evicted `(stationID, day)` keys, logged error messages,
accumulated `(programID, md5)` pairs and yielded station ids. -/
structure SchedLoopState where
  evicted : List (String × String)
  logged : List String
  programIds : List (String × String)
  yielded : List String

/-- The loop of `src/sdgrabber/client.py` lines 233–248.  For an error
envelope the code computes `day` from `airDateTime` (the date part of the
ISO timestamp, its first 10 characters) and calls
`self.store.remove_schedule((station_id, day))`: Python resolves the
attribute first, so when no class of the store defines `remove_schedule`
the call raises AttributeError and the loop dies — otherwise the key is
evicted, the message logged, and the loop continues.  A non-error entry
extends the program-id list and yields its ScheduleModel. -/
def processScheduleEntries (methods : List String) :
    List SchedEntry → SchedLoopState → Except PyErr SchedLoopState
  | [], st => .ok st
  | .errEnvelope sid adt msg :: rest, st =>
    if hasattrStore methods "remove_schedule" then
      processScheduleEntries methods rest
        { st with evicted := st.evicted ++ [(sid, adt.take 10)],
                  logged := st.logged ++ [msg] }
    else
      .error (.attributeError "remove_schedule")
  | .sched sid programs :: rest, st =>
    processScheduleEntries methods rest
      { st with programIds := st.programIds ++ programs,
                yielded := st.yielded ++ [sid] }

/-- C5: no store class of the repository defines `remove_schedule`, so a
batch entry shaped as an error envelope for station `10021` / day
`2019-03-01` makes the schedule loop raise AttributeError at the eviction
call: the key is not removed from the change state, the message is never
logged, and the rest of the batch is not processed. -/
theorem schedule_error_branch_attribute_error :
    hasattrStore nullStoreMethods "remove_schedule" = false ∧
    hasattrStore pickleStoreMethods "remove_schedule" = false ∧
    processScheduleEntries nullStoreMethods
      [.errEnvelope "10021" "2019-03-01T00:00:00Z" "that schedule failed",
       .sched "10042" [("EP018632100004", "J+AO")]]
      ⟨[], [], [], []⟩ = .error (.attributeError "remove_schedule") := by
  refine ⟨by decide, by decide, ?_⟩
  simp [processScheduleEntries, hasattrStore, nullStoreMethods, baseStoreMethods]

/-! ## Program phase (`get_programs` of `src/sdgrabber/client.py` 253–337) -/

/-- `chunker(iterable, size)` of `src/sdgrabber/client.py` lines 37–40:
consecutive groups of at most `size` elements, order preserved. -/
def chunker {α : Type} (size : Nat) : List α → List (List α)
  | [] => []
  | x :: xs => (x :: xs.take (size - 1)) :: chunker size (xs.drop (size - 1))
  termination_by l => l.length
  decreasing_by simp; omega

/-- The `data` payload of a `/metadata/programs` (artwork) response item:
either a dict (carrying an optional `code`) or a list of artwork entries
(held opaquely). -/
inductive ArtData
  | dict (code : Option Int)
  | list (items : List String)
  deriving DecidableEq, Repr

/-- One item of the `/metadata/programs` response: `programID` plus its
`data` payload. -/
structure ArtItem where
  programID : String
  data : ArtData
  deriving DecidableEq, Repr

/-- The `/metadata/description` response: normally a dict keyed by program
id (values held opaquely), but the endpoint "returns empty lists
sometimes" — any non-dict shape makes `.pop` raise TypeError. -/
inductive MetaResp
  | dict (entries : List (String × String))
  | notDict
  deriving DecidableEq, Repr

/-- One object of the `/programs` response: its `programID` plus its other
fields, held opaquely. -/
structure RawProgram where
  programID : String
  fields : List (String × String)
  deriving DecidableEq, Repr

/-- A merged program as yielded by `get_programs`: the program object's own
fields plus the injected `schedules` (airtime contexts), the optional
metadata description fields and the optional `artwork` data. -/
structure MergedProgram where
  programID : String
  fields : List (String × String)
  schedules : List String
  meta : Option String
  artwork : Option ArtData
  deriving DecidableEq, Repr

/-- The skip test of client.py 299–301: `isinstance(data, dict) and
data.get('code') == 5000`. -/
def artSkip : ArtData → Bool
  | .dict (some c) => c = 5000
  | _ => false

/-- client.py 293–302: build the artwork dict from the response list,
skipping not-found placeholders; `artwork[item.pop('programID')] = item`
keys each kept item by its `programID`. -/
def buildArtwork (items : List ArtItem) : List (String × ArtData) :=
  items.foldl
    (fun aw item => if artSkip item.data then aw else dset aw item.programID item.data) []

/-- `program.update(metadata.pop(program['programID']))` inside
`try/except (TypeError, AttributeError, KeyError): pass`
(client.py 309–319): a non-dict response or a missing key injects nothing;
a found entry is removed from the dict and injected. -/
def metaPop : MetaResp → String → Option String × MetaResp
  | .notDict, _ => (none, .notDict)
  | .dict m, pid =>
    match dpop m pid with
    | some (v, m') => (some v, .dict m')
    | none => (none, .dict m)

/-- The merge loop of client.py 306–330, threading the mutable `airtimes`,
`metadata` and `artwork` dicts through the programs of one batch:

* `program['schedules'] = airtimes.pop(program['programID'])` — unguarded:
  a missing key raises KeyError and aborts the generator;
* metadata injected via `metaPop` (absence tolerated);
* `program['artwork'] = artwork.pop(program['programID'][:10])['data']`
  inside `try/except KeyError: pass` — looked up under the first 10
  characters of the program id; absence leaves the program without
  artwork but still yielded.

Result: (merged programs yielded before any error, final airtimes,
the error that aborted the loop, if any). -/
def mergeLoop :
    List RawProgram → List (String × List String) → MetaResp →
    List (String × ArtData) →
    List MergedProgram × List (String × List String) × Option PyErr
  | [], airt, _, _ => ([], airt, none)
  | p :: rest, airt, md, aw =>
    match dpop airt p.programID with
    | none => ([], airt, some (.keyError p.programID))
    | some (scheds, airt1) =>
      let mm := metaPop md p.programID
      let aa :=
        match dpop aw (p.programID.take 10) with
        | some (a, awr) => (some a, awr)
        | none => (none, aw)
      let r := mergeLoop rest airt1 mm.2 aa.2
      (⟨p.programID, p.fields, scheds, mm.1, aa.1⟩ :: r.1, r.2.1, r.2.2)

/-- The per-batch server responses consumed by `get_programs`. -/
structure ProgEnv where
  programsResp : List String → List RawProgram
  metadataResp : List String → MetaResp
  artworkResp : List String → List ArtItem

/-- One iteration of the batch loop (client.py 280–330): request the
program objects and description metadata for the chunk's ids, request the
artwork with the ids truncated to their first 10 characters
(`data = [d[:10] for d in data]`), build the artwork dict, then run the
merge loop. -/
def processChunk (env : ProgEnv) (airt : List (String × List String))
    (chunk : List String) :
    List MergedProgram × List (String × List String) × Option PyErr :=
  mergeLoop (env.programsResp chunk) airt (env.metadataResp chunk)
    (buildArtwork (env.artworkResp (chunk.map (fun d => d.take 10))))

/-- All batch iterations in sequence, threading the airtimes dict;
an error aborts the remaining batches.  Result: (all merged programs
yielded, the aborting error, if any). -/
def runChunks (env : ProgEnv) :
    List (List String) → List (String × List String) →
    List MergedProgram × Option PyErr
  | [], _ => ([], none)
  | c :: cs, airt =>
    match processChunk env airt c with
    | (ms, _, some e) => (ms, some e)
    | (ms, airt1, none) =>
      let r := runChunks env cs airt1
      (ms ++ r.1, r.2)

/-- The inputs of a `get_programs` run: the stored program state, the
accumulated `(programID, md5)` list, the airtimes index built from the
lineup and schedule phases, and the server responses. -/
structure ProgPhase where
  oldPrograms : List (String × String)
  programIds : List (String × String)
  airtimes : List (String × List String)
  env : ProgEnv

/-- `self.store.diff_programs(self._program_ids)` chunked by 500 and run
through the batch loop. -/
def runChunksOf (ph : ProgPhase) : List MergedProgram × Option PyErr :=
  runChunks ph.env (chunker 500 (_diff ph.oldPrograms ph.programIds).2) ph.airtimes

/-- An event the `get_programs` generator body executes. -/
inductive PEvent
  | yieldProgram (p : MergedProgram)
  | save
  | raiseErr (e : PyErr)
  deriving DecidableEq, Repr

/-- Whether an event is a yield. -/
def isYieldEv : PEvent → Bool
  | .yieldProgram _ => true
  | _ => false

/-- How a `get_programs` run ends: with the single `self.store.save()` of
client.py line 337 when no batch raised, else with the raised exception. -/
def tailEvents : Option PyErr → List PEvent
  | none => [PEvent.save]
  | some e => [PEvent.raiseErr e]

/-- The events `get_programs` executes when run to exhaustion: one yield
per merged program, batch by batch, and — only after the last batch
completed — the single `self.store.save()` of client.py line 337 (which
persists the lineup, schedule and program maps); a run aborted by an
exception ends in that exception and never reaches `save`. -/
def getProgramsEvents (ph : ProgPhase) : List PEvent :=
  (runChunksOf ph).1.map PEvent.yieldProgram ++ tailEvents (runChunksOf ph).2

/-- Generator semantics: the events the body actually executes when the
consumer requests `n` items and then discards the iterator — the body
runs up to and including the `n`-th yield (or to its end when it has
fewer yields); requesting nothing runs nothing. -/
def consumeN : Nat → List PEvent → List PEvent
  | 0, _ => []
  | _ + 1, [] => []
  | n + 1, .yieldProgram p :: rest => .yieldProgram p :: consumeN n rest
  | n + 1, e :: rest => e :: consumeN (n + 1) rest

theorem consumeN_of_le_yields (ms : List MergedProgram) (tail : List PEvent) :
    ∀ n, n ≤ ms.length →
      consumeN n (ms.map PEvent.yieldProgram ++ tail) =
        (ms.take n).map PEvent.yieldProgram := by
  induction ms with
  | nil =>
    intro n hn
    have h0 : n = 0 := Nat.le_zero.mp hn
    subst h0
    simp [consumeN]
  | cons m rest ih =>
    intro n hn
    cases n with
    | zero => simp [consumeN]
    | succ k =>
      have hcons : consumeN (k + 1) ((m :: rest).map PEvent.yieldProgram ++ tail) =
          PEvent.yieldProgram m :: consumeN k (rest.map PEvent.yieldProgram ++ tail) := by
        simp [consumeN]
      rw [hcons, ih k (Nat.succ_le_succ_iff.mp hn), List.take_succ_cons, List.map_cons]

theorem save_not_mem_map_yield (ms : List MergedProgram) :
    PEvent.save ∉ ms.map PEvent.yieldProgram := by
  intro h
  obtain ⟨p, _, hp⟩ := List.mem_map.mp h
  exact PEvent.noConfusion hp

theorem count_save_map_yield (ms : List MergedProgram) :
    (ms.map PEvent.yieldProgram).count PEvent.save = 0 :=
  List.count_eq_zero.mpr (save_not_mem_map_yield ms)

theorem countP_yield_append (ms : List MergedProgram) (tail : List PEvent) :
    (ms.map PEvent.yieldProgram ++ tail).countP isYieldEv =
      ms.length + tail.countP isYieldEv := by
  rw [List.countP_append]
  congr 1
  induction ms with
  | nil => rfl
  | cons m rest ih => simp [List.countP_cons, ih, isYieldEv]

/-- C4: `store.save()` — which persists the lineup, schedule and program
maps — is executed exactly once per run, as the very last event after
every program batch has completed; a run aborted by an exception never
reaches it, and a consumer that takes only `n ≤ #yields` programs and
discards the generator never causes the body to execute `save`, so no
partial state is committed. -/
theorem save_once_at_end_never_on_abandonment (ph : ProgPhase) :
    ((runChunksOf ph).2 = none →
      getProgramsEvents ph =
        (runChunksOf ph).1.map PEvent.yieldProgram ++ [PEvent.save] ∧
      (getProgramsEvents ph).count PEvent.save = 1) ∧
    (∀ e, (runChunksOf ph).2 = some e →
      PEvent.save ∉ getProgramsEvents ph) ∧
    (∀ n, n ≤ (getProgramsEvents ph).countP isYieldEv →
      PEvent.save ∉ consumeN n (getProgramsEvents ph)) := by
  rcases hrc : runChunksOf ph with ⟨ms, err⟩
  have hev : getProgramsEvents ph =
      ms.map PEvent.yieldProgram ++ tailEvents err := by
    unfold getProgramsEvents
    rw [hrc]
  refine ⟨fun hok => ?_, fun e he => ?_, fun n hn => ?_⟩
  · have herr : err = none := hok
    subst herr
    refine ⟨?_, ?_⟩
    · exact hev.trans rfl
    · rw [hev, List.count_append, count_save_map_yield]
      rfl
  · have herr : err = some e := he
    subst herr
    rw [hev]
    intro hmem
    rcases List.mem_append.mp hmem with hm | hm
    · exact save_not_mem_map_yield _ hm
    · exact PEvent.noConfusion (List.mem_singleton.mp hm)
  · rw [hev] at hn ⊢
    have h0 : (tailEvents err).countP isYieldEv = 0 := by
      cases err <;> rfl
    rw [countP_yield_append, h0] at hn
    rw [consumeN_of_le_yields _ _ n (by omega)]
    exact save_not_mem_map_yield _

/-- A one-program batch scenario for the truncated-key artwork lookup:
the airtimes index holds the full 14-character program id. -/
def c8Airt : List (String × List String) := [("SH031652540000", ["airtime0"])]

/-- Server responses: the artwork endpoint echoes the requested
(truncated) ids, so its one item is keyed "SH03165254". -/
def c8EnvWithArt : ProgEnv :=
  { programsResp := fun _ => [⟨"SH031652540000", [("md5", "bsQozbvQrGujMpSqgXZhYQ")]⟩],
    metadataResp := fun _ => .notDict,
    artworkResp := fun ids => ids.map (fun i => ⟨i, ArtData.list ["poster.jpg"]⟩) }

/-- Server responses with no artwork at all. -/
def c8EnvNoArt : ProgEnv :=
  { programsResp := fun _ => [⟨"SH031652540000", [("md5", "bsQozbvQrGujMpSqgXZhYQ")]⟩],
    metadataResp := fun _ => .notDict,
    artworkResp := fun _ => [] }

/-- C8: the artwork request is issued with each program id truncated to
its first 10 characters, and every merged program draws its artwork from
the artwork dict under `programID.take 10` — present or not, the program
is yielded, with artwork omitted when the truncated key has no entry.
Concretely, program "SH031652540000" is assigned the artwork item keyed
"SH03165254", and with no artwork response it is yielded without an
artwork field. -/
theorem artwork_truncated_key_lookup :
    (∀ (env : ProgEnv) (airt : List (String × List String)) (chunk : List String),
      processChunk env airt chunk =
        mergeLoop (env.programsResp chunk) airt (env.metadataResp chunk)
          (buildArtwork (env.artworkResp (chunk.map (fun d => d.take 10))))) ∧
    (∀ (p : RawProgram) (rest : List RawProgram)
        (airt : List (String × List String)) (md : MetaResp)
        (aw : List (String × ArtData)) (scheds : List String)
        (airt1 : List (String × List String)),
      dpop airt p.programID = some (scheds, airt1) →
      (mergeLoop (p :: rest) airt md aw).1.head? =
        some ⟨p.programID, p.fields, scheds, (metaPop md p.programID).1,
              (dpop aw (p.programID.take 10)).map Prod.fst⟩) ∧
    (processChunk c8EnvWithArt c8Airt ["SH031652540000"]).1 =
      [⟨"SH031652540000", [("md5", "bsQozbvQrGujMpSqgXZhYQ")], ["airtime0"], none,
        some (.list ["poster.jpg"])⟩] ∧
    (processChunk c8EnvNoArt c8Airt ["SH031652540000"]).1 =
      [⟨"SH031652540000", [("md5", "bsQozbvQrGujMpSqgXZhYQ")], ["airtime0"], none, none⟩] := by
  refine ⟨fun env airt chunk => rfl, fun p rest airt md aw scheds airt1 h => ?_, ?_, ?_⟩
  · rw [mergeLoop, h]
    cases haw : dpop aw (p.programID.take 10) with
    | none => simp [haw]
    | some a => simp [haw]
  · decide
  · decide

/-! ## People (`src/sdgrabber/models.py`: `ProgramModel._get_people`
lines 205–208, `PersonModel.__init__` lines 305–312) -/

/-- The fields of a person JSON object read by `PersonModel.__init__`:
`personId`, `name`, the optional `billingOrder` and `role`. -/
structure PersonData where
  personId : String
  name : String
  billingOrder : Option Nat
  role : String
  deriving DecidableEq, Repr

/-- `PersonModel.billing_order`: `data.get('billingOrder', 0)`. -/
def billing_order (p : PersonData) : Nat := p.billingOrder.getD 0

/-- The person-list keys of a program JSON object that `_get_people` can
reach: the `cast` and `crew` lists, and a (normally absent) literal
`role` key; `none` models an absent key. -/
structure PeopleData where
  cast : Option (List PersonData)
  crew : Option (List PersonData)
  role : Option (List PersonData)
  deriving Repr

/-- Stable insertion step of an ascending sort by billing order. -/
def insertPerson (p : PersonData) : List PersonData → List PersonData
  | [] => [p]
  | q :: rest =>
    if billing_order q < billing_order p then q :: insertPerson p rest
    else p :: q :: rest

/-- `sorted(people, key=lambda p: p.billing_order)`: a stable ascending
sort by billing order. -/
def sortPeople (l : List PersonData) : List PersonData :=
  l.foldr insertPerson []

/-- `ProgramModel._get_people(self, role)` of models.py lines 205–208:

    people = [PersonModel(p) for p in self.data.get('role', [])]
    return sorted(people, key=lambda p: p.billing_order)

The dict lookup uses the literal key `'role'`; the `role` parameter is
never used. -/
def _get_people (d : PeopleData) (role : String) : List PersonData :=
  sortPeople (d.role.getD [])

/-- `ProgramModel.actors` (and its alias `cast`):
`self._get_people(role='cast')`. -/
def actors (d : PeopleData) : List PersonData := _get_people d "cast"

/-- `ProgramModel.crew`: `self._get_people(role='crew')`. -/
def crew (d : PeopleData) : List PersonData := _get_people d "crew"

theorem mem_insertPerson (p x : PersonData) (l : List PersonData) :
    x ∈ insertPerson p l ↔ x = p ∨ x ∈ l := by
  induction l with
  | nil => simp [insertPerson]
  | cons q rest ih =>
    by_cases h : billing_order q < billing_order p
    · simp only [insertPerson, if_pos h, List.mem_cons, ih]
      tauto
    · simp only [insertPerson, if_neg h, List.mem_cons]

theorem pairwise_insertPerson (p : PersonData) (l : List PersonData)
    (h : l.Pairwise (fun a b => billing_order a ≤ billing_order b)) :
    (insertPerson p l).Pairwise (fun a b => billing_order a ≤ billing_order b) := by
  induction l with
  | nil => simp [insertPerson]
  | cons q rest ih =>
    rw [List.pairwise_cons] at h
    by_cases hq : billing_order q < billing_order p
    · rw [insertPerson, if_pos hq, List.pairwise_cons]
      refine ⟨fun r hr => ?_, ih h.2⟩
      rcases (mem_insertPerson p r rest).mp hr with rfl | hrr
      · exact Nat.le_of_lt hq
      · exact h.1 r hrr
    · rw [insertPerson, if_neg hq, List.pairwise_cons]
      refine ⟨fun r hr => ?_, List.pairwise_cons.mpr h⟩
      rcases List.mem_cons.mp hr with rfl | hrr
      · exact Nat.le_of_not_lt hq
      · exact Nat.le_trans (Nat.le_of_not_lt hq) (h.1 r hrr)

theorem sortPeople_sorted (l : List PersonData) :
    (sortPeople l).Pairwise (fun a b => billing_order a ≤ billing_order b) := by
  induction l with
  | nil => simp [sortPeople]
  | cons p rest ih => exact pairwise_insertPerson p _ ih

/-- A cast entry like the one documented on `PersonModel`. -/
def lauren : PersonData :=
  { personId := "68293", name := "Lauren Graham", billingOrder := some 1,
    role := "Actor" }

/-- C9: `_get_people` reads the literal dict key `'role'` — its `role`
parameter is unused — so `actors` and `crew` always coincide and both
ignore the program's cast and crew lists: a program whose data carries a
cast list but no `role` key gets `actors = []`.  The sort itself is
ascending by billing order, and an absent `billingOrder` defaults to 0. -/
theorem people_role_literal_bug :
    (∀ d : PeopleData, actors d = crew d) ∧
    (∀ d : PeopleData, actors d = sortPeople (d.role.getD [])) ∧
    actors ⟨some [lauren], some [], none⟩ = [] ∧
    (∀ l : List PersonData,
      (sortPeople l).Pairwise (fun a b => billing_order a ≤ billing_order b)) ∧
    billing_order ⟨"68293", "Lauren Graham", none, "Actor"⟩ = 0 :=
  ⟨fun d => rfl, fun d => rfl, rfl, sortPeople_sorted, rfl⟩
